import Mathlib

/-!
Verification of the condition/assertion engine in `src/shared/condition.c`.

The development embeds the composition logic (`condition_test`,
`condition_test_list`), the comparator scanner (`parse_order`,
`test_order`) and the `KernelVersion`, `OSRelease`, `Firmware`
smbios-field, `PathIsReadWrite`, `NeedsUpdate` and `FirstBoot` evaluators
as executable Lean functions over `List Char` cursors.

Host-fact providers (`proc_cmdline_get_bool`, `lstat`, `parse_os_release`,
`path_is_read_only_fs`, `read_virtual_file`, ...) are abstract interfaces
in the specification; they are passed in as explicit oracle arguments or
environment records, exactly as the evaluators consume their results.
Helper routines that live outside the provided sources
(`extract_first_word`, `strverscmp_improved`, `fnmatch`, `startswith`,
`parse_boolean`, `env_name_is_valid`, `filename_is_valid`) are modelled
from the specification text; each carries a doc comment saying so.
-/

namespace Systemd

/-- Errno constant `EINVAL` (invalid argument). -/
def EINVAL : Int := 22

/-- Errno constant `ENOENT` (no such file or directory). -/
def ENOENT : Int := 2

/-- The character list of a string literal. -/
def chars (s : String) : List Char := s.data

/-- Membership in the C `WHITESPACE` set `" \t\n\r"`. -/
def isWS (c : Char) : Bool := c = ' ' || c = '\t' || c = '\n' || c = '\r'

/-- ASCII decimal digit test. -/
def isDigitCh (c : Char) : Bool := '0' ≤ c && c ≤ '9'

/-- Modelled from the spec: the C `startswith(s, p)` helper (string-util,
not under `src/`): if `p` is a prefix of `s`, return the cursor advanced
past `p`, otherwise null. -/
def startswith : List Char → List Char → Option (List Char)
  | s, [] => some s
  | [], _ :: _ => none
  | c :: s, p :: ps => if c = p then startswith s ps else none

/-- The `OrderOperator` enumeration of `condition.c`, in the order the
scanner checks the prefixes (longest listed first). -/
inductive OrderOperator
  | fnmatch_equal
  | fnmatch_unequal
  | lower_or_equal
  | greater_or_equal
  | lower
  | greater
  | equal
  | unequal
deriving DecidableEq

/-- The prefix table of `parse_order`. -/
def opChars : OrderOperator → List Char
  | .fnmatch_equal => ['=', '$']
  | .fnmatch_unequal => ['!', '=', '$']
  | .lower_or_equal => ['<', '=']
  | .greater_or_equal => ['>', '=']
  | .lower => ['<']
  | .greater => ['>']
  | .equal => ['=']
  | .unequal => ['!', '=']

/-- Whether an operator is one of the two fnmatch (glob) operators,
i.e. lies in `[_ORDER_FNMATCH_FIRST, _ORDER_FNMATCH_LAST]`. -/
def isFnmatchOp : OrderOperator → Bool
  | .fnmatch_equal => true
  | .fnmatch_unequal => true
  | _ => false

/-- The scanning loop of `parse_order`: try each prefix in table order; on
the first match, if it is a glob operator and fnmatch is not allowed the C
code `break`s out (returning `_ORDER_INVALID` with the cursor untouched),
otherwise the cursor advances past the prefix. -/
def parse_order_loop (s : List Char) (allow_fnmatch : Bool) :
    List OrderOperator → Option OrderOperator × List Char
  | [] => (none, s)
  | i :: rest =>
    match startswith s (opChars i) with
    | some e =>
      if !allow_fnmatch && isFnmatchOp i then (none, s) else (some i, e)
    | none => parse_order_loop s allow_fnmatch rest

/-- The order in which `parse_order` checks the comparators. -/
def order_table : List OrderOperator :=
  [.fnmatch_equal, .fnmatch_unequal, .lower_or_equal, .greater_or_equal,
   .lower, .greater, .equal, .unequal]

/-- `parse_order` from `condition.c`: scan a comparator prefix from the
cursor. Returns the recognized operator together with the updated cursor
(the cursor is unchanged when no operator is recognized). -/
def parse_order (s : List Char) (allow_fnmatch : Bool) :
    Option OrderOperator × List Char :=
  parse_order_loop s allow_fnmatch order_table

/-- `test_order` from `condition.c`: fold a three-way comparison result
through an ordering operator. The two fnmatch operators hit
`assert_not_reached()` in C; they are never passed to `test_order` by any
caller and are mapped to `false` here. -/
def test_order (k : Int) (p : OrderOperator) : Bool :=
  match p with
  | .lower => decide (k < 0)
  | .lower_or_equal => decide (k ≤ 0)
  | .equal => decide (k = 0)
  | .unequal => decide (k ≠ 0)
  | .greater_or_equal => decide (0 ≤ k)
  | .greater => decide (0 < k)
  | .fnmatch_equal => false
  | .fnmatch_unequal => false

/-- Numeric value of a run of decimal digits. -/
def digitsVal (l : List Char) : Nat :=
  l.foldl (fun acc c => acc * 10 + (c.toNat - 48)) 0

/-- Lexicographic comparison of two leading-zero digit runs read as
decimal fractions; when one run is a proper prefix of the other, the
longer run (more leading-zero precision) orders first. -/
def lexFracCmp : List Char → List Char → Int
  | [], [] => 0
  | [], _ :: _ => 1
  | _ :: _, [] => -1
  | x :: xs, y :: ys =>
    if x = y then lexFracCmp xs ys
    else if x.toNat < y.toNat then -1 else 1

/-- Compare two maximal digit runs: runs starting with `'0'` are treated
as decimal fractions and order below integer runs; otherwise the runs are
compared numerically. -/
def compare_digit_runs (da db : List Char) : Int :=
  if da.head? = some '0' && !(db.head? = some '0') then -1
  else if db.head? = some '0' && !(da.head? = some '0') then 1
  else if da.head? = some '0' && db.head? = some '0' then lexFracCmp da db
  else if digitsVal da < digitsVal db then -1
  else if digitsVal da = digitsVal db then 0
  else 1

/-- Fuel-indexed worker for the version comparison. -/
def strverscmpFuel : Nat → List Char → List Char → Int
  | 0, _, _ => 0
  | _ + 1, [], [] => 0
  | _ + 1, [], _ :: _ => -1
  | _ + 1, _ :: _, [] => 1
  | fuel + 1, x :: xs, y :: ys =>
    if isDigitCh x && isDigitCh y then
      let da := (x :: xs).takeWhile isDigitCh
      let db := (y :: ys).takeWhile isDigitCh
      let k := compare_digit_runs da db
      if k = 0 then
        strverscmpFuel fuel ((x :: xs).dropWhile isDigitCh)
          ((y :: ys).dropWhile isDigitCh)
      else k
    else if x = y then strverscmpFuel fuel xs ys
    else if x.toNat < y.toNat then -1 else 1

/-- Modelled from the spec: `strverscmp_improved` (string-util, not under
`src/`), the GNU-style natural version comparison: runs of digits are
compared numerically, but runs starting with `'0'` are treated as decimal
fractions, so that `1.001 < 1.01 < 1.1`. -/
def strverscmp_improved (a b : List Char) : Int :=
  strverscmpFuel (a.length + b.length + 1) a b

/-- Fuel-indexed worker for the glob matcher. -/
def fnmatchFuel : Nat → List Char → List Char → Bool
  | 0, _, _ => false
  | fuel + 1, p, s =>
    match p, s with
    | [], [] => true
    | [], _ :: _ => false
    | '*' :: ps, t =>
      fnmatchFuel fuel ps t ||
        (match t with
         | [] => false
         | _ :: t2 => fnmatchFuel fuel ('*' :: ps) t2)
    | '?' :: ps, _ :: t2 => fnmatchFuel fuel ps t2
    | p1 :: ps, c :: t2 => p1 = c && fnmatchFuel fuel ps t2
    | _ :: _, [] => false

/-- Modelled from the spec: `fnmatch`-style shell glob matching used by
the `KernelVersion` bare-glob clauses and the smbios-field glob
comparators. `*` and `?` wildcards and literal characters are modelled;
bracket classes and extended patterns do not occur in the specification's
scenarios. -/
def fnmatchList (p s : List Char) : Bool :=
  fnmatchFuel (p.length + s.length + 1) p s

/-- Fuel-indexed worker splitting a cursor into whitespace-separated
words. -/
def wordsFuel : Nat → List Char → List (List Char)
  | 0, _ => []
  | _ + 1, [] => []
  | fuel + 1, c :: s =>
    if isWS c then wordsFuel fuel s
    else
      (c :: s.takeWhile (fun d => !isWS d)) ::
        wordsFuel fuel (s.dropWhile (fun d => !isWS d))

/-- Modelled from the spec: the repeated `extract_first_word` loop
(extract-word, not under `src/`) over a parameter, which yields the
whitespace-separated words of the parameter; quoting is not exercised by
any claim and is not modelled. -/
def words (s : List Char) : List (List Char) := wordsFuel s.length s

/-- `delete_trailing_chars(s, WHITESPACE)`: drop trailing whitespace. -/
def delete_trailing_ws (l : List Char) : List Char :=
  (l.reverse.dropWhile isWS).reverse

/-- Modelled from the spec: `strstrip` (string-util, not under `src/`):
drop leading and trailing whitespace. -/
def strstrip (l : List Char) : List Char :=
  delete_trailing_ws (l.dropWhile isWS)

/-- The `ConditionResult` enumeration. -/
inductive ConditionResult
  | untested
  | succeeded
  | failed
  | error
deriving DecidableEq

/-- The `Condition` record as the composer sees it. The dispatch
`condition_tests[c->type](c, env)` through the evaluator registry,
together with the host facts it reads, is abstracted by the integer
`eval`, the raw value the selected evaluator returns for this condition
(negative on error, positive on success, zero on failure). -/
structure Condition where
  eval : Int
  trigger : Bool
  negate : Bool
  result : ConditionResult
deriving DecidableEq

/-- `condition_test` from `condition.c`: run the evaluator; a negative
return marks the condition `CONDITION_ERROR` and is propagated unchanged;
otherwise the boolean `b = (r > 0) == !negate` decides between
`CONDITION_SUCCEEDED` and `CONDITION_FAILED` and is returned. The pair is
(return value, condition with its `result` slot updated). -/
def condition_test (c : Condition) : Int × Condition :=
  let r := c.eval
  if r < 0 then (r, { c with result := ConditionResult.error })
  else
    let b := decide (0 < r) == !c.negate
    (if b then 1 else 0,
     { c with result := if b then ConditionResult.succeeded else ConditionResult.failed })

/-- The iteration of `condition_test_list`: `triggered` starts at `-1`;
a non-trigger condition with non-positive result short-circuits to false;
a trigger condition updates `triggered` to `r > 0` while `triggered ≤ 0`;
the verdict is `triggered != 0`. -/
def condition_test_list_loop : List Condition → Int → Bool
  | [], triggered => decide (triggered ≠ 0)
  | c :: rest, triggered =>
    let r := (condition_test c).1
    if !c.trigger && decide (r ≤ 0) then false
    else
      condition_test_list_loop rest
        (if c.trigger && decide (triggered ≤ 0) then (if 0 < r then 1 else 0)
         else triggered)

/-- `condition_test_list` from `condition.c`: an empty list is true,
otherwise the loop above decides the verdict. -/
def condition_test_list (cs : List Condition) : Bool :=
  match cs with
  | [] => true
  | _ :: _ => condition_test_list_loop cs (-1)

/-- The final boolean of a condition as the specification describes it:
the evaluator did not error, and `(r > 0) XOR negate` holds. This equals
`(condition_test c).1 > 0`. -/
def condition_final_verdict (c : Condition) : Bool :=
  decide (0 ≤ c.eval) && (decide (0 < c.eval) == !c.negate)

/-- Worker loop of `condition_test_kernel_version`: iterate over the
whitespace-separated words of the parameter; a word starting with a
comparator is version-compared against the release (with the
space-separated value form allowed only for the first expression); any
other word is an fnmatch glob against the release; all clauses must
hold. -/
def ktv_go (release : List Char) : List (List Char) → Bool → Int
  | [], _ => 1
  | w :: rest, first =>
    let s := strstrip w
    match parse_order s false with
    | (some ord, s1) =>
      let s2 := s1.dropWhile isWS
      if s2.isEmpty then
        if first then
          match rest with
          | [] => -EINVAL
          | v :: rest2 =>
            if test_order (strverscmp_improved release v) ord then
              ktv_go release rest2 false
            else 0
        else -EINVAL
      else
        if test_order (strverscmp_improved release s2) ord then
          ktv_go release rest false
        else 0
    | (none, _) =>
      if fnmatchList s release then ktv_go release rest false else 0

/-- `condition_test_kernel_version` from `condition.c`, with the uname
release injected as an oracle value. -/
def condition_test_kernel_version (release parameter : List Char) : Int :=
  ktv_go release (words parameter) true

/-- The separator set `"!<=>"` used to split an os-release item into key
and comparator. -/
def osKeySeps : List Char := ['!', '<', '=', '>']

/-- Modelled from the spec: `env_name_is_valid` (env-util, not under
`src/`): os-release keys must be env-var-like — nonempty, ASCII letters,
digits or underscore, not starting with a digit. -/
def env_name_is_valid (s : List Char) : Bool :=
  match s with
  | [] => false
  | c :: _ =>
    !isDigitCh c &&
      s.all (fun d =>
        isDigitCh d || ('A' ≤ d && d ≤ 'Z') || ('a' ≤ d && d ≤ 'z') || d = '_')

/-- `streq_ptr(actual_value, word)` where `actual_value` may be a null
pointer (missing key) and `word` is never null. -/
def streq_ptr (a : Option (List Char)) (b : List Char) : Bool :=
  match a with
  | none => false
  | some v => v == b

/-- Parsing of one os-release `KEY<op>VALUE` item, mirroring the checks
of `condition_test_osrelease`: split the key at the first of `"!<=>"`,
require an env-var-valid key, a recognized non-glob comparator, and a
nonempty value not starting with whitespace. `none` is the `-EINVAL`
path. -/
def osrel_word_parse (w : List Char) :
    Option (List Char × OrderOperator × List Char) :=
  if w.isEmpty || (w.dropWhile (fun c => !osKeySeps.contains c)).isEmpty ||
      !env_name_is_valid (w.takeWhile (fun c => !osKeySeps.contains c)) then
    none
  else
    match parse_order (w.dropWhile (fun c => !osKeySeps.contains c)) false with
    | (none, _) => none
    | (some op, v) =>
      match v with
      | [] => none
      | c :: tail =>
        if isWS c then none
        else some (w.takeWhile (fun d => !osKeySeps.contains d), op, c :: tail)

/-- Worker loop of `condition_test_osrelease` over the parameter's
words: `=`/`!=` compare the looked-up value as exact strings
(`streq_ptr`), the other comparators version-compare; the first
unmatched item yields false, a malformed item yields `-EINVAL`. -/
def osrel_go (lookup : List Char → Option (List Char)) :
    List (List Char) → Int
  | [] => 1
  | w :: rest =>
    match osrel_word_parse w with
    | none => -EINVAL
    | some (key, op, v) =>
      let actual := lookup key
      let ok :=
        if op = OrderOperator.equal then streq_ptr actual v
        else if op = OrderOperator.unequal then !streq_ptr actual v
        else test_order (strverscmp_improved (actual.getD []) v) op
      if ok then osrel_go lookup rest else 0

/-- `condition_test_osrelease` from `condition.c`, with the os-release
file injected as a key-lookup oracle (the spec's
`parse_os_release(root, key) → optional<string>` provider). -/
def condition_test_osrelease (lookup : List Char → Option (List Char))
    (parameter : List Char) : Int :=
  osrel_go lookup (words parameter)

/-- One os-release item's match relation as the specification words it:
`=`/`!=` are exact string matches with a missing key read as the empty
value; the ordering comparators use the version comparison. -/
def osrel_item_matches_spec (lookup : List Char → Option (List Char))
    (key : List Char) (op : OrderOperator) (v : List Char) : Bool :=
  let actual := (lookup key).getD []
  match op with
  | .equal => actual == v
  | .unequal => !(actual == v)
  | _ => test_order (strverscmp_improved actual v) op

/-- The separator set `"!<=>$"` used to split the smbios field name from
the comparator. -/
def smbiosSeps : List Char := ['!', '<', '=', '>', '$']

/-- Modelled from the spec: `filename_is_valid` (path-util, not under
`src/`): a plain, filename-safe component — nonempty, not `.` or `..`,
no slash, bounded length. -/
def filename_is_valid (f : List Char) : Bool :=
  !f.isEmpty && !(f = ['.']) && !(f = ['.', '.']) && !f.contains '/' &&
    decide (f.length ≤ 255)

/-- `condition_test_firmware_smbios_field` from `condition.c`: parse
`FIELD OP VALUE`, where OP is scanned with fnmatch ALLOWED; read
`/sys/class/dmi/id/<field>` through the injected oracle (the value read
may carry a trailing newline, which is stripped); compare with fnmatch
for the glob operators and version comparison otherwise. A read failing
with `-ENOENT` is false, any other failure is propagated. -/
def condition_test_firmware_smbios_field
    (readField : List Char → Except Int (List Char))
    (expression : List Char) : Int :=
  let field0 := expression.takeWhile (fun c => !smbiosSeps.contains c)
  let ex1 := expression.dropWhile (fun c => !smbiosSeps.contains c)
  if expression.isEmpty || ex1.isEmpty then -EINVAL
  else
    let field := delete_trailing_ws field0
    match parse_order ex1 true with
    | (none, _) => -EINVAL
    | (some op, ex2) =>
      let ex2w := ex2.dropWhile isWS
      let expected := ex2w.takeWhile (fun c => !isWS c)
      let ex3 := ex2w.dropWhile (fun c => !isWS c)
      if ex2w.isEmpty || !ex3.isEmpty then -EINVAL
      else if !filename_is_valid field then -EINVAL
      else
        match readField field with
        | Except.error e => if e = -ENOENT then 0 else e
        | Except.ok raw =>
          let actual := delete_trailing_ws raw
          if op = OrderOperator.fnmatch_equal then
            (if fnmatchList expected actual then 1 else 0)
          else if op = OrderOperator.fnmatch_unequal then
            (if fnmatchList expected actual then 0 else 1)
          else if test_order (strverscmp_improved actual expected) op then 1
          else 0

/-- `condition_test_path_is_read_write` from `condition.c`:
`r = path_is_read_only_fs(parameter)` (injected oracle result), then
`return r <= 0 && r != -ENOENT`. -/
def condition_test_path_is_read_write (r : Int) : Int :=
  if r ≤ 0 ∧ r ≠ -ENOENT then 1 else 0

/-- An `st_mtim` timestamp. -/
structure Timespec where
  tv_sec : Int
  tv_nsec : Int
deriving DecidableEq

/-- Modelled from the spec: `timespec_load_nsec` (time-util, not under
`src/`): the mtime expressed in nanoseconds, compared against the
`TIMESTAMP_NSEC=` value. -/
def timespec_load_nsec (t : Timespec) : Int :=
  t.tv_sec * 1000000000 + t.tv_nsec

/-- `path_is_absolute`: the path starts with a slash. -/
def path_is_absolute (p : List Char) : Bool :=
  match p with
  | '/' :: _ => true
  | _ => false

/-- The host facts `condition_test_needs_update` consumes, as oracle
results: the `systemd.condition-needs-update=` lookup (return value and
parsed boolean), the initrd test, the read-only-filesystem probe for the
parameter, the two `lstat` mtimes (`none` = stat failed), and the parsed
`TIMESTAMP_NSEC=` value of the `.updated` file (`none` = missing file
data, unreadable file or unparseable value, which all fall back to
true). -/
structure NeedsUpdateEnv where
  cmdline_r : Int
  cmdline_b : Bool
  in_initrd : Bool
  read_only_fs : Int
  stat_updated : Option Timespec
  stat_usr : Option Timespec
  timestamp_nsec : Option Nat
deriving DecidableEq

/-- `condition_test_needs_update` from `condition.c`. -/
def condition_test_needs_update (param : List Char) (env : NeedsUpdateEnv) :
    Int :=
  if 0 < env.cmdline_r then (if env.cmdline_b then 1 else 0)
  else if env.in_initrd then 0
  else if !path_is_absolute param then 1
  else if 0 < env.read_only_fs then 0
  else
    match env.stat_updated with
    | none => 1
    | some other =>
      match env.stat_usr with
      | none => 1
      | some usr =>
        if usr.tv_sec ≠ other.tv_sec then
          (if other.tv_sec < usr.tv_sec then 1 else 0)
        else if usr.tv_nsec = 0 ∨ 0 < other.tv_nsec then
          (if other.tv_nsec < usr.tv_nsec then 1 else 0)
        else
          match env.timestamp_nsec with
          | none => 1
          | some ts => if (ts : Int) < timespec_load_nsec usr then 1 else 0

/-- Follows the specification's words for the `NeedsUpdate`
mtime/nanosecond rule, for comparison against the code: seconds decide
when they differ; nanoseconds decide only when `/usr`'s nanoseconds > 0
AND the target's nanoseconds > 0; otherwise fall through to the
`TIMESTAMP_NSEC=` comparison. -/
def needs_update_nsec_rule_claimed (usr other : Timespec)
    (ts : Option Nat) : Int :=
  if usr.tv_sec ≠ other.tv_sec then
    (if other.tv_sec < usr.tv_sec then 1 else 0)
  else if 0 < usr.tv_nsec ∧ 0 < other.tv_nsec then
    (if other.tv_nsec < usr.tv_nsec then 1 else 0)
  else
    match ts with
    | none => 1
    | some t => if (t : Int) < timespec_load_nsec usr then 1 else 0

/-- The host facts `condition_test_first_boot` consumes: the
`systemd.condition-first-boot=` lookup (return value and parsed boolean)
and the `access("/run/systemd/first-boot", F_OK)` result. -/
structure FirstBootEnv where
  cmdline_r : Int
  cmdline_b : Bool
  first_boot_access : Int
deriving DecidableEq

/-- Modelled from the spec: `parse_boolean` (parse-util, not under
`src/`): accept the usual boolean spellings, `-EINVAL` otherwise. -/
def parse_boolean (s : List Char) : Int :=
  if s = chars (r"1") ∨ s = chars (r"yes") ∨ s = chars (r"y") ∨
      s = chars (r"true") ∨ s = chars (r"t") ∨ s = chars (r"on") then 1
  else if s = chars (r"0") ∨ s = chars (r"no") ∨ s = chars (r"n") ∨
      s = chars (r"false") ∨ s = chars (r"f") ∨ s = chars (r"off") then 0
  else -EINVAL

/-- `condition_test_first_boot` from `condition.c`: when the kernel
command line carries a parseable `systemd.condition-first-boot=` boolean
(`r > 0`), return `b == !!r`; otherwise the boolean parameter must match
the presence of `/run/systemd/first-boot`. -/
def condition_test_first_boot (param : List Char) (env : FirstBootEnv) :
    Int :=
  if 0 < env.cmdline_r then
    (if env.cmdline_b = decide (env.cmdline_r ≠ 0) then 1 else 0)
  else
    let r := parse_boolean param
    if r < 0 then r
    else if decide (0 ≤ env.first_boot_access) = decide (r ≠ 0) then 1
    else 0

end Systemd

namespace Systemd

theorem beq_not_eq_xor (a b : Bool) : (a == !b) = Bool.xor a b := by
  cases a <;> cases b <;> rfl

/-- Claim C2: after `condition_test` returns, the condition's `result`
slot is never `untested`; if the evaluator returned `r < 0` the result is
`error` and `condition_test` returns `r` unchanged (negate is not applied
to errors); otherwise the final boolean equals `(r > 0) XOR negate`, the
result is `succeeded` exactly when that boolean holds and `failed`
otherwise, and that boolean (as 1/0) is returned. -/
theorem condition_test_result_contract (c : Condition) :
    (condition_test c).2.result ≠ ConditionResult.untested ∧
    (condition_test c).2.result =
      (if c.eval < 0 then ConditionResult.error
       else if Bool.xor (decide (0 < c.eval)) c.negate then ConditionResult.succeeded
       else ConditionResult.failed) ∧
    (condition_test c).1 =
      (if c.eval < 0 then c.eval
       else if Bool.xor (decide (0 < c.eval)) c.negate then 1 else 0) := by
  unfold condition_test
  by_cases h : c.eval < 0
  · simp [h]
  · simp only [h, if_false, beq_not_eq_xor]
    cases hx : Bool.xor (decide (0 < c.eval)) c.negate <;> simp [h, hx, beq_not_eq_xor]

theorem condition_test_fst_pos (c : Condition) :
    decide (0 < (condition_test c).1) = condition_final_verdict c := by
  unfold condition_test condition_final_verdict
  by_cases h : c.eval < 0
  · have h1 : ¬ (0 : Int) < c.eval := by omega
    have h2 : ¬ (0 : Int) ≤ c.eval := by omega
    simp [h, h1, h2]
  · have h2 : (0 : Int) ≤ c.eval := by omega
    cases hx : (decide (0 < c.eval) == !c.negate) <;> simp [h, hx, h2]

theorem condition_test_fst_nonpos (c : Condition) :
    decide ((condition_test c).1 ≤ 0) = !condition_final_verdict c := by
  have h := condition_test_fst_pos c
  have h2 : decide ((condition_test c).1 ≤ 0) = !decide (0 < (condition_test c).1) := by
    by_cases hx : (condition_test c).1 ≤ 0
    · have : ¬ 0 < (condition_test c).1 := by omega
      simp [hx, this]
    · have : 0 < (condition_test c).1 := by omega
      simp [hx, this]
  rw [h2, h]

end Systemd

namespace Systemd

theorem condition_test_list_loop_eq (cs : List Condition) : ∀ t : Int,
    condition_test_list_loop cs t =
      ((cs.all fun c => c.trigger || condition_final_verdict c) &&
       (if 0 < t then true
        else if t = 0 then cs.any fun c => c.trigger && condition_final_verdict c
        else ((cs.all fun c => !c.trigger) ||
              (cs.any fun c => c.trigger && condition_final_verdict c)))) := by
  induction cs with
  | nil =>
    intro t
    rcases lt_trichotomy t 0 with h | h | h
    · have h1 : ¬ 0 < t := by omega
      have h2 : t ≠ 0 := by omega
      simp [condition_test_list_loop, h1, h2]
    · simp [condition_test_list_loop, h]
    · have h2 : t ≠ 0 := by omega
      simp [condition_test_list_loop, h, h2]
  | cons c rest ih =>
    intro t
    rw [condition_test_list_loop]
    by_cases hv : condition_final_verdict c = true
    · have hpos : 0 < (condition_test c).1 :=
        of_decide_eq_true ((condition_test_fst_pos c).trans hv)
      have hle : ¬ (condition_test c).1 ≤ 0 := by omega
      by_cases htr : c.trigger
      · rcases lt_trichotomy t 0 with h | h | h
        · have h0 : ¬ 0 < t := by omega
          have hne : t ≠ 0 := by omega
          have ht1 : decide (t ≤ 0) = true := by simp; omega
          simp [htr, hv, hle, hpos, ht1, ih, h0, hne, h]
        · have ht1 : decide (t ≤ 0) = true := by simp; omega
          simp [htr, hv, hle, hpos, ht1, ih, h]
        · have ht1 : decide (t ≤ 0) = false := by simp; omega
          have hne : t ≠ 0 := by omega
          simp [htr, hv, hle, hpos, ht1, ih, h, hne]
      · simp [htr, hv, hle, hpos, ih]
    · have hv2 : condition_final_verdict c = false := by
        cases hvv : condition_final_verdict c
        · rfl
        · exact absurd hvv hv
      have hnpos : ¬ 0 < (condition_test c).1 := by
        intro hc
        have := (condition_test_fst_pos c).symm.trans (decide_eq_true hc)
        rw [hv2] at this
        exact Bool.false_ne_true this
      have hle : (condition_test c).1 ≤ 0 := by omega
      by_cases htr : c.trigger
      · rcases lt_trichotomy t 0 with h | h | h
        · have h0 : ¬ 0 < t := by omega
          have hne : t ≠ 0 := by omega
          have ht1 : decide (t ≤ 0) = true := by simp; omega
          simp [htr, hv2, hle, hnpos, ht1, ih, h0, hne, h]
        · have ht1 : decide (t ≤ 0) = true := by simp; omega
          simp [htr, hv2, hle, hnpos, ht1, ih, h]
        · have ht1 : decide (t ≤ 0) = false := by simp; omega
          have hne : t ≠ 0 := by omega
          simp [htr, hv2, hle, hnpos, ht1, ih, h, hne]
      · simp [htr, hv2, hle, hnpos]

/-- Claim C1: `condition_test_list` is true on the empty list; otherwise
it is true iff every regular (non-trigger) condition's final boolean
(after negate) is positive AND, when at least one trigger condition is
present, at least one trigger condition's final boolean is positive. An
evaluator error makes the final boolean false, so it counts as "not
triggered" for trigger accumulation and as a failure for a regular
condition (which short-circuits the iteration to a false verdict). -/
theorem condition_test_list_verdict (cs : List Condition) :
    condition_test_list cs =
      ((cs.all fun c => c.trigger || condition_final_verdict c) &&
       ((cs.all fun c => !c.trigger) ||
        (cs.any fun c => c.trigger && condition_final_verdict c))) := by
  match cs with
  | [] => simp [condition_test_list]
  | c :: rest =>
    rw [condition_test_list, condition_test_list_loop_eq]
    norm_num

/-- Claim C3: for each operator string — possibly followed by a value
that does not itself extend the operator to a longer one — `parse_order`
recognizes the longest operator prefix present (never classifying `<=`
as `<`, `>=` as `>`, or mistaking `!=` for `=`) and advances the cursor
past exactly that prefix; with `allow_fnmatch = false` on an input
starting with `=$` it returns none and leaves the cursor unchanged. -/
theorem parse_order_longest_match (v : List Char) (a : Bool)
    (heq : v.head? ≠ some '=') (hdl : v.head? ≠ some '$') :
    parse_order ('<' :: '=' :: v) a = (some OrderOperator.lower_or_equal, v) ∧
    parse_order ('>' :: '=' :: v) a = (some OrderOperator.greater_or_equal, v) ∧
    parse_order ('<' :: v) a = (some OrderOperator.lower, v) ∧
    parse_order ('>' :: v) a = (some OrderOperator.greater, v) ∧
    parse_order ('=' :: v) a = (some OrderOperator.equal, v) ∧
    parse_order ('!' :: '=' :: v) a = (some OrderOperator.unequal, v) ∧
    parse_order ('=' :: '$' :: v) true = (some OrderOperator.fnmatch_equal, v) ∧
    parse_order ('!' :: '=' :: '$' :: v) true = (some OrderOperator.fnmatch_unequal, v) ∧
    parse_order ('=' :: '$' :: v) false = (none, '=' :: '$' :: v) := by
  rcases v with _ | ⟨c, v⟩
  · simp [parse_order, parse_order_loop, order_table, startswith, opChars, isFnmatchOp]
  · have hc1 : c ≠ '=' := by
      intro hcc
      exact heq (by simp [hcc])
    have hc2 : c ≠ '$' := by
      intro hcc
      exact hdl (by simp [hcc])
    simp [parse_order, parse_order_loop, order_table, startswith, opChars,
      isFnmatchOp, hc1, hc2]

/-- Witness for claim C3 at the concrete suffix `"5"`. -/
theorem parse_order_longest_match_witness :
    (List.head? ['5'] ≠ some '=') ∧ (List.head? ['5'] ≠ some '$') ∧
    parse_order ('<' :: ['5']) true = (some OrderOperator.lower, ['5']) :=
  ⟨by decide, by decide,
    (parse_order_longest_match ['5'] true (by decide) (by decide)).2.2.1⟩

/-- Claim C10: for every input beginning with `!=$` and
`allow_fnmatch = false`, `parse_order` returns none and leaves the cursor
unchanged: scanning stops at the first matching prefix in the
longest-first table even when that prefix is a disallowed glob operator,
so there is no fallback to the shorter non-glob prefix `!=`. -/
theorem parse_order_fnmatch_no_fallback (v : List Char) :
    parse_order ('!' :: '=' :: '$' :: v) false = (none, '!' :: '=' :: '$' :: v) := by
  simp [parse_order, parse_order_loop, order_table, startswith, opChars, isFnmatchOp]

/-- Counterexample to claim C4: with parameter `">= 5.10 < 6.0 *-generic"`
the evaluator returns `-EINVAL` (= -22) for both releases, because the
space-separated comparator form of the second sub-expression (`"< 6.0"`)
is only accepted in the first sub-expression; it does not return true
(resp. false) as claimed. -/
theorem kernel_version_space_form_counterexample :
    condition_test_kernel_version (chars (r"5.15.0-42-generic"))
      (chars (r">= 5.10 < 6.0 *-generic")) = -22 ∧
    condition_test_kernel_version (chars (r"6.1.0"))
      (chars (r">= 5.10 < 6.0 *-generic")) = -22 := by
  constructor <;> decide

/-- Claim C4 (amended): with the space-separated comparator form used only
in the first sub-expression — parameter `">= 5.10 <6.0 *-generic"` — the
release `"5.15.0-42-generic"` satisfies all three clauses (true) and the
release `"6.1.0"` fails the `"<6.0"` clause (false); every
whitespace-separated sub-expression must hold. -/
theorem kernel_version_multi_expression_amended :
    condition_test_kernel_version (chars (r"5.15.0-42-generic"))
      (chars (r">= 5.10 <6.0 *-generic")) = 1 ∧
    condition_test_kernel_version (chars (r"6.1.0"))
      (chars (r">= 5.10 <6.0 *-generic")) = 0 := by
  constructor <;> decide

/-- Counterexample to claim C5: when the read-only probe fails with
`-ENOENT` the evaluator returns 0 (false), not true. -/
theorem path_is_read_write_enoent_counterexample :
    condition_test_path_is_read_write (-ENOENT) = 0 := by decide

/-- Claim C5 (amended): the evaluator is boolean and returns true iff the
probe reported the filesystem as not read-only (`r ≤ 0`) AND did not fail
with `-ENOENT`; a non-existent path therefore yields false, while any
other probe error yields true. -/
theorem path_is_read_write_amended (rr : Int) :
    (condition_test_path_is_read_write rr = 1 ∨
     condition_test_path_is_read_write rr = 0) ∧
    (condition_test_path_is_read_write rr = 1 ↔ (rr ≤ 0 ∧ rr ≠ -ENOENT)) := by
  unfold condition_test_path_is_read_write
  by_cases h : rr ≤ 0 ∧ rr ≠ -ENOENT
  · simp [h]
  · simp [h]

/-- Counterexample to claim C6: with equal mtime seconds, `/usr`
nanoseconds 0 and target nanoseconds 5, the code decides by the
nanosecond comparison and returns 0, while the claimed rule (nanoseconds
decide only when both are positive) falls through to the
`TIMESTAMP_NSEC=` comparison and yields 1 at the same input. -/
theorem needs_update_nsec_guard_counterexample :
    condition_test_needs_update (chars (r"/etc"))
      ⟨0, false, false, 0, some ⟨100, 5⟩, some ⟨100, 0⟩, some 0⟩ = 0 ∧
    needs_update_nsec_rule_claimed ⟨100, 0⟩ ⟨100, 5⟩ (some 0) = 1 := by
  constructor <;> decide

/-- Claim C6 (amended): when both stats succeed (and the earlier gates
pass), differing seconds decide the result (`/usr` newer); with equal
seconds the nanosecond fields decide UNLESS `/usr`'s nanoseconds are
positive and the target's are zero, in which case (and only then) the
evaluator falls through to the `TIMESTAMP_NSEC=` comparison. -/
theorem needs_update_mtime_amended (param : List Char) (env : NeedsUpdateEnv)
    (usr other : Timespec)
    (h1 : env.cmdline_r ≤ 0) (h2 : env.in_initrd = false)
    (h3 : path_is_absolute param = true) (h4 : env.read_only_fs ≤ 0)
    (h5 : env.stat_updated = some other) (h6 : env.stat_usr = some usr)
    (h7 : 0 ≤ usr.tv_nsec) (h8 : 0 ≤ other.tv_nsec) :
    condition_test_needs_update param env =
      (if usr.tv_sec ≠ other.tv_sec then
        (if other.tv_sec < usr.tv_sec then 1 else 0)
       else if 0 < usr.tv_nsec ∧ other.tv_nsec = 0 then
        (match env.timestamp_nsec with
         | none => 1
         | some ts => if (ts : Int) < timespec_load_nsec usr then 1 else 0)
       else (if other.tv_nsec < usr.tv_nsec then 1 else 0)) := by
  unfold condition_test_needs_update
  have g1 : ¬ 0 < env.cmdline_r := by omega
  have g4 : ¬ 0 < env.read_only_fs := by omega
  simp only [g1, if_false, h2, h3, g4, h5, h6, Bool.not_true, if_neg,
    Bool.false_eq_true, ite_false]
  split_ifs <;> first | rfl | (exfalso; omega)

/-- Witness for claim C6 (amended) at a concrete environment with
differing seconds. -/
theorem needs_update_mtime_amended_witness :
    condition_test_needs_update (chars (r"/etc"))
      ⟨0, false, false, 0, some ⟨100, 3⟩, some ⟨200, 7⟩, none⟩ = 1 := by
  have h := needs_update_mtime_amended (chars (r"/etc"))
    ⟨0, false, false, 0, some ⟨100, 3⟩, some ⟨200, 7⟩, none⟩
    ⟨200, 7⟩ ⟨100, 3⟩ (by decide) (by decide) (by decide) (by decide)
    (by decide) (by decide) (by decide) (by decide)
  rw [h]
  decide

/-- Claim C7: whenever the kernel command line carries a parseable
`systemd.condition-first-boot=` boolean (`r > 0` from the lookup), the
evaluator returns that boolean, regardless of the condition parameter and
of `/run/systemd/first-boot`. -/
theorem first_boot_cmdline_override (param : List Char) (env : FirstBootEnv)
    (h : 0 < env.cmdline_r) :
    condition_test_first_boot param env = (if env.cmdline_b then 1 else 0) := by
  unfold condition_test_first_boot
  have hne : env.cmdline_r ≠ 0 := by omega
  simp [h, hne]

/-- Witness for claim C7: command line says "true", parameter says
"false", the first-boot flag file is absent; the evaluator still returns
1. -/
theorem first_boot_cmdline_override_witness :
    (0 : Int) < 1 ∧
    condition_test_first_boot (chars (r"false")) ⟨1, true, -1⟩ = 1 := by
  refine ⟨by decide, ?_⟩
  have h := first_boot_cmdline_override (chars (r"false")) ⟨1, true, -1⟩ (by decide)
  rw [h]
  decide

theorem takeWhile_all {α : Type} (p : α → Bool) :
    ∀ (l : List α), (∀ c ∈ l, p c = true) → l.takeWhile p = l := by
  intro l h
  induction l with
  | nil => rfl
  | cons c s ih =>
    rw [List.takeWhile_cons, h c (by simp)]
    rw [ih (fun d hd => h d (by simp [hd]))]
    simp

theorem dropWhile_all {α : Type} (p : α → Bool) :
    ∀ (l : List α), (∀ c ∈ l, p c = true) → l.dropWhile p = [] := by
  intro l h
  induction l with
  | nil => rfl
  | cons c s ih =>
    rw [List.dropWhile_cons, h c (by simp)]
    exact ih (fun d hd => h d (by simp [hd]))

theorem dropWhile_id_of_none {α : Type} (p : α → Bool) :
    ∀ (l : List α), (∀ c ∈ l, p c = false) → l.dropWhile p = l := by
  intro l h
  induction l with
  | nil => rfl
  | cons c s ih =>
    rw [List.dropWhile_cons, h c (by simp)]
    simp

theorem strstrip_no_ws (l : List Char) (h : ∀ c ∈ l, isWS c = false) :
    strstrip l = l := by
  unfold strstrip delete_trailing_ws
  rw [dropWhile_id_of_none _ l h]
  rw [dropWhile_id_of_none _ l.reverse (fun c hc => h c (List.mem_reverse.mp hc))]
  exact List.reverse_reverse l

theorem wordsFuel_nil : ∀ fuel, wordsFuel fuel [] = [] := by
  intro fuel
  cases fuel <;> rfl

theorem words_single (c : Char) (s : List Char)
    (h : ∀ d ∈ c :: s, isWS d = false) :
    words (c :: s) = [c :: s] := by
  have hc : isWS c = false := h c (by simp)
  have hs : ∀ d ∈ s, (fun d => !isWS d) d = true := by
    intro d hd
    simp [h d (by simp [hd])]
  show wordsFuel (s.length + 1) (c :: s) = [c :: s]
  rw [wordsFuel]
  simp only [hc, Bool.false_eq_true, if_false]
  rw [takeWhile_all _ s hs, dropWhile_all _ s hs, wordsFuel_nil]

theorem osrel_word_parse_value_ne_nil (w k : List Char) (op : OrderOperator)
    (v : List Char) (h : osrel_word_parse w = some (k, op, v)) : v ≠ [] := by
  unfold osrel_word_parse at h
  split at h
  · simp at h
  · split at h
    · simp at h
    · split at h
      · simp at h
      · split at h
        · simp at h
        · simp only [Option.some.injEq, Prod.mk.injEq] at h
          obtain ⟨h1, h2, h3⟩ := h
          subst h3
          simp

theorem streq_ptr_getD (a : Option (List Char)) (v : List Char) (hv : v ≠ []) :
    streq_ptr a v = ((a.getD []) == v) := by
  cases a with
  | none =>
    cases v with
    | nil => exact absurd rfl hv
    | cons c tail => rfl
  | some x => rfl

theorem osrel_go_eq (lookup : List Char → Option (List Char)) :
    ∀ (items : List (List Char)),
      (∀ w ∈ items, (osrel_word_parse w).isSome) →
      osrel_go lookup items =
        (if items.all (fun w =>
            match osrel_word_parse w with
            | some (k, op, v) => osrel_item_matches_spec lookup k op v
            | none => false) then 1 else 0) := by
  intro items
  induction items with
  | nil =>
    intro _
    simp [osrel_go]
  | cons w rest ih =>
    intro h
    have hw : (osrel_word_parse w).isSome := h w (by simp)
    obtain ⟨⟨k, op, v⟩, hp⟩ := Option.isSome_iff_exists.mp hw
    have hv : v ≠ [] := osrel_word_parse_value_ne_nil w k op v hp
    have hok :
        (if op = OrderOperator.equal then streq_ptr (lookup k) v
         else if op = OrderOperator.unequal then !streq_ptr (lookup k) v
         else test_order (strverscmp_improved ((lookup k).getD []) v) op) =
          osrel_item_matches_spec lookup k op v := by
      cases op <;> simp [osrel_item_matches_spec, streq_ptr_getD _ _ hv]
    rw [osrel_go, hp]
    simp only [hok]
    rw [List.all_cons, hp]
    by_cases hm : osrel_item_matches_spec lookup k op v = true
    · simp only [hm, if_true, Bool.true_and]
      exact ih (fun x hx => h x (by simp [hx]))
    · have hm2 : osrel_item_matches_spec lookup k op v = false := by
        cases hb : osrel_item_matches_spec lookup k op v
        · rfl
        · exact absurd hb hm
      simp [hm2]

/-- Claim C8: the `OSRelease` evaluator checks every well-formed
`KEY<op>VALUE` item of its parameter: `=`/`!=` are exact string matches
(a missing key reads as the empty value), the ordering comparators use
the version comparison, the verdict is true iff every item matches (the
first mismatch deciding false); concretely, against an os-release with
`VERSION_ID=22.04` the parameter `"VERSION_ID=22.4"` is false since
`22.04` and `22.4` differ as strings. -/
theorem osrelease_matching (lookup : List Char → Option (List Char))
    (parameter : List Char)
    (hwf : ∀ w ∈ words parameter, (osrel_word_parse w).isSome) :
    (condition_test_osrelease lookup parameter =
      (if (words parameter).all (fun w =>
          match osrel_word_parse w with
          | some (k, op, v) => osrel_item_matches_spec lookup k op v
          | none => false) then 1 else 0)) ∧
    condition_test_osrelease
      (fun k => if k = chars (r"VERSION_ID") then some (chars (r"22.04")) else none)
      (chars (r"VERSION_ID=22.4")) = 0 := by
  refine ⟨?_, by decide⟩
  unfold condition_test_osrelease
  exact osrel_go_eq lookup (words parameter) hwf

/-- Witness for claim C8 at the parameter `"ID=ubuntu"` against an
os-release answering `ubuntu` for every key. -/
theorem osrelease_matching_witness :
    (∀ w ∈ words (chars (r"ID=ubuntu")), (osrel_word_parse w).isSome) ∧
    condition_test_osrelease (fun _ => some (chars (r"ubuntu")))
        (chars (r"ID=ubuntu")) =
      (if (words (chars (r"ID=ubuntu"))).all (fun w =>
          match osrel_word_parse w with
          | some (k, op, v) =>
            osrel_item_matches_spec (fun _ => some (chars (r"ubuntu"))) k op v
          | none => false) then 1 else 0) :=
  ⟨by decide,
    (osrelease_matching (fun _ => some (chars (r"ubuntu")))
      (chars (r"ID=ubuntu")) (by decide)).1⟩

/-- Claim C9: the glob comparators `=$` and `!=$` are recognized inside
the Firmware smbios-field expression (scanned with fnmatch allowed),
while the KernelVersion and OSRelease evaluators scan with fnmatch
disallowed: a KernelVersion word starting with `=$` is treated as a bare
fnmatch glob rather than a comparator, and an OSRelease item whose
comparator position starts with `=$` is an `-EINVAL` error. -/
theorem glob_operators_only_in_smbios :
    (condition_test_firmware_smbios_field
        (fun f => if f = chars (r"sys_vendor")
          then Except.ok (chars (r"Dell Inc.") ++ ['\n']) else Except.error (-ENOENT))
        (chars (r"sys_vendor =$ *Dell*")) = 1) ∧
    (condition_test_firmware_smbios_field
        (fun f => if f = chars (r"sys_vendor")
          then Except.ok (chars (r"Dell Inc.") ++ ['\n']) else Except.error (-ENOENT))
        (chars (r"sys_vendor !=$ *Dell*")) = 0) ∧
    (∀ (release w : List Char), (∀ ch ∈ w, isWS ch = false) →
      condition_test_kernel_version release ('=' :: '$' :: w) =
        (if fnmatchList ('=' :: '$' :: w) release then 1 else 0)) ∧
    (∀ (lookup : List Char → Option (List Char)) (w : List Char),
      (∀ ch ∈ w, isWS ch = false) →
      condition_test_osrelease lookup (chars (r"ID=$") ++ w) = -EINVAL) := by
  refine ⟨by decide, by decide, ?_, ?_⟩
  · intro release w hw
    have hall : ∀ d ∈ '=' :: '$' :: w, isWS d = false := by
      intro d hd
      rcases List.mem_cons.mp hd with rfl | hd2
      · decide
      · rcases List.mem_cons.mp hd2 with rfl | hd3
        · decide
        · exact hw d hd3
    unfold condition_test_kernel_version
    rw [words_single _ _ hall]
    have hpo : parse_order ('=' :: '$' :: w) false = (none, '=' :: '$' :: w) := by
      simp [parse_order, parse_order_loop, order_table, startswith, opChars,
        isFnmatchOp]
    rw [ktv_go]
    rw [strstrip_no_ws _ hall, hpo]
    by_cases hm : fnmatchList ('=' :: '$' :: w) release = true
    · simp [hm, ktv_go]
    · have hm2 : fnmatchList ('=' :: '$' :: w) release = false := by
        cases hb : fnmatchList ('=' :: '$' :: w) release
        · rfl
        · exact absurd hb hm
      simp [hm2]
  · intro lookup w hw
    have heq : chars (r"ID=$") ++ w = 'I' :: 'D' :: '=' :: '$' :: w := rfl
    rw [heq]
    have hall : ∀ d ∈ 'I' :: 'D' :: '=' :: '$' :: w, isWS d = false := by
      intro d hd
      simp only [List.mem_cons] at hd
      rcases hd with rfl | rfl | rfl | rfl | hd4
      · decide
      · decide
      · decide
      · decide
      · exact hw d hd4
    unfold condition_test_osrelease
    rw [words_single _ _ hall]
    have hparse : osrel_word_parse ('I' :: 'D' :: '=' :: '$' :: w) = none := by
      unfold osrel_word_parse
      have h1 : List.dropWhile (fun c => !osKeySeps.contains c)
          ('I' :: 'D' :: '=' :: '$' :: w) = '=' :: '$' :: w := by
        simp [osKeySeps]
      have h2 : List.takeWhile (fun c => !osKeySeps.contains c)
          ('I' :: 'D' :: '=' :: '$' :: w) = ['I', 'D'] := by
        simp [osKeySeps]
      rw [h1, h2]
      have hpo : parse_order ('=' :: '$' :: w) false = (none, '=' :: '$' :: w) := by
        simp [parse_order, parse_order_loop, order_table, startswith, opChars,
          isFnmatchOp]
      simp [hpo, env_name_is_valid, isDigitCh]
    rw [osrel_go, hparse]

/-- Witness for claim C9's universally quantified conjuncts at concrete
inputs. -/
theorem glob_operators_only_in_smbios_witness :
    (∀ ch ∈ chars (r"5*"), isWS ch = false) ∧
    condition_test_kernel_version (chars (r"5.10.0")) ('=' :: '$' :: chars (r"5*")) =
      (if fnmatchList ('=' :: '$' :: chars (r"5*")) (chars (r"5.10.0")) then 1
       else 0) ∧
    condition_test_osrelease (fun _ => none) (chars (r"ID=$") ++ chars (r"x")) =
      -EINVAL :=
  ⟨by decide,
    (glob_operators_only_in_smbios).2.2.1 (chars (r"5.10.0")) (chars (r"5*"))
      (by decide),
    (glob_operators_only_in_smbios).2.2.2 (fun _ => none) (chars (r"x"))
      (by decide)⟩

end Systemd
